import Mathlib

/-!
Verification of the icon-resolution engine and row-processing (rate-shaping)
policy of the material-icons browser extension (src/main.js).

The engine functions (lookForMatch, lookForLightMatch, lookForIconPackMatch,
the icon-computation core of replaceIcon, and the rushFirst rate shaper) are
embedded as pure Lean functions.  The static JSON reference tables
(icon-map.json, language-map.json, icon-list.json) are not part of the source
tree, so they appear as abstract parameters (see IconMap / LanguageMap below).
JavaScript truthiness tests on table entries (strings) are modelled by
`truthy`: an entry is taken only when it is present and non-empty.
-/

namespace MaterialIcons

/-- Truthiness of a JS string-valued table access: `obj[key]` is truthy
exactly when the key is present and its (string) value is non-empty. -/
def truthy : Option String → Bool
  | none => false
  | some s => !(s == "")

/-- Modelled from the spec: light-theme override tables of icon-map.json
(`iconMap.light`), a data file not present under src/; per the spec these are
read-only mappings from file names, folder names and extensions to icon
identifiers. -/
structure LightMap where
  fileNames : String → Option String
  folderNames : String → Option String
  fileExtensions : String → Option String

/-- Modelled from the spec: the primary reference tables of icon-map.json,
a data file not present under src/; read-only mappings from names,
extensions and language ids to icon identifiers. -/
structure IconMap where
  fileNames : String → Option String
  folderNames : String → Option String
  fileExtensions : String → Option String
  languageIds : String → Option String
  light : LightMap

/-- Modelled from the spec: the secondary/fallback VSCode language tables of
language-map.json, a data file not present under src/. -/
structure LanguageMap where
  fileNames : String → Option String
  fileExtensions : String → Option String

/-- JS coerces a key used in `obj[key]` to a string; a missing (undefined)
file extension therefore reads the table at the literal key "undefined". -/
def extKey : Option String → String
  | some e => e
  | none => "undefined"

/-- The character class \w of the extension regex: [A-Za-z0-9_]. -/
def isWordChar (c : Char) : Bool := c.isAlphanum || c == '_'

/-- Shape of the regex alternative xml.dist (dots unescaped in the source
regex, hence any non-newline character). -/
def matchXmlDist : List Char → Bool
  | ['x', 'm', 'l', c, 'd', 'i', 's', 't'] => c != '\n'
  | _ => false

/-- Shape of the regex alternative xml.dist.sample. -/
def matchXmlDistSample : List Char → Bool
  | ['x', 'm', 'l', c1, 'd', 'i', 's', 't', c2, 's', 'a', 'm', 'p', 'l', 'e'] =>
      c1 != '\n' && c2 != '\n'
  | _ => false

/-- Shape of the regex alternative yml.dist. -/
def matchYmlDist : List Char → Bool
  | ['y', 'm', 'l', c, 'd', 'i', 's', 't'] => c != '\n'
  | _ => false

/-- A dot position in the file name yields a match of the regex
`.*?[.](?<ext>xml.dist|xml.dist.sample|yml.dist|\w+)$` exactly when the whole
remainder after the dot has one of the alternative shapes (each alternative is
anchored at the end of the string, so it must consume the full remainder). -/
def extAltMatch (l : List Char) : Bool :=
  matchXmlDist l || matchXmlDistSample l || matchYmlDist l ||
    (!l.isEmpty && l.all isWordChar)

/-- Scan for the leftmost dot whose remainder matches one of the regex
alternatives; the captured extension is that remainder. -/
def findExt : List Char → Option (List Char)
  | [] => none
  | c :: rest => if c == '.' && extAltMatch rest then some rest else findExt rest

/-- Embedding of the extension computation of replaceIcon (main.js line 156):
`fileName.match(/.*?[.](?<ext>xml.dist|xml.dist.sample|yml.dist|\w+)$/)?.[1]`.
Returns none when the name has no matching dotted suffix. -/
def fileExtension (fileName : String) : Option String :=
  (findExt fileName.data).map fun l => ⟨l⟩

/-- Embedding of lookForMatch (main.js lines 207-238). -/
def lookForMatch (iconMap : IconMap) (languageMap : LanguageMap)
    (fileName lowerFileName : String) (fileExt : Option String)
    (isDir isSubmodule isSymlink : Bool) : String :=
  if isSubmodule then "folder-git"
  else if isSymlink then "folder-symlink"
  else if truthy (iconMap.fileNames fileName) && !isDir && !isSubmodule then
    (iconMap.fileNames fileName).getD ""
  else if truthy (iconMap.folderNames fileName) && isDir && !isSubmodule then
    (iconMap.folderNames fileName).getD ""
  else if truthy (iconMap.fileNames lowerFileName) && !isDir && !isSubmodule then
    (iconMap.fileNames lowerFileName).getD ""
  else if truthy (iconMap.folderNames lowerFileName) && isDir && !isSubmodule then
    (iconMap.folderNames lowerFileName).getD ""
  else if truthy (iconMap.fileExtensions (extKey fileExt)) && !isDir && !isSubmodule then
    (iconMap.fileExtensions (extKey fileExt)).getD ""
  else if truthy (iconMap.languageIds (extKey fileExt)) && !isDir && !isSubmodule then
    (iconMap.languageIds (extKey fileExt)).getD ""
  else if truthy (languageMap.fileNames fileName) && !isDir && !isSubmodule then
    (languageMap.fileNames fileName).getD ""
  else if truthy (languageMap.fileNames lowerFileName) && !isDir && !isSubmodule then
    (languageMap.fileNames lowerFileName).getD ""
  else if truthy (languageMap.fileExtensions (extKey fileExt)) && !isDir then
    (languageMap.fileExtensions (extKey fileExt)).getD ""
  else if isDir then "folder"
  else "file"

/-- Embedding of lookForLightMatch (main.js lines 250-260). -/
def lookForLightMatch (iconMap : IconMap) (iconName fileName : String)
    (fileExt : Option String) (isDir : Bool) : String :=
  if truthy (iconMap.light.fileNames fileName) && !isDir then
    (iconMap.light.fileNames fileName).getD ""
  else if truthy (iconMap.light.folderNames fileName) && isDir then
    (iconMap.light.folderNames fileName).getD ""
  else if truthy (iconMap.light.fileExtensions (extKey fileExt)) && !isDir then
    (iconMap.light.fileExtensions (extKey fileExt)).getD ""
  else iconName

/-- Embedding of the JS regex test /pat$/.test(s) for a literal pattern:
the reversed pattern must head the reversed string. -/
def isPre : List Char → List Char → Bool
  | [], _ => true
  | _ :: _, [] => false
  | a :: as, b :: bs => a == b && isPre as bs

/-- End-anchored literal match, the meaning of the nest-pack regex tests. -/
def jsEndsWith (s pat : String) : Bool :=
  isPre pat.data.reverse s.data.reverse

/-- Embedding of lookForIconPackMatch (main.js lines 269-327).  The icon
existence table icon-list.json is modelled from the spec as an existence set
(String → Bool); the active pack is the configured string, empty meaning
none (JS truthiness of `iconMap.options.activeIconPack`).  The JS switch with
fallthrough groupings is rendered as an equality chain in case order. -/
def lookForIconPackMatch (activeIconPack : String) (iconsList : String → Bool)
    (lowerFileName : String) : Option String :=
  if activeIconPack == "" then none
  else if activeIconPack == "angular" || activeIconPack == "angular_ngrx" then
    if iconsList ("folder-react-" ++ lowerFileName ++ ".svg") then
      some ("folder-ngrx-" ++ lowerFileName)
    else none
  else if activeIconPack == "react" || activeIconPack == "react_redux" then
    if iconsList ("folder-react-" ++ lowerFileName ++ ".svg") then
      some ("folder-react-" ++ lowerFileName)
    else if iconsList ("folder-redux-" ++ lowerFileName ++ ".svg") then
      some ("folder-redux-" ++ lowerFileName)
    else none
  else if activeIconPack == "vue" || activeIconPack == "vue_vuex" then
    if iconsList ("folder-vuex-" ++ lowerFileName ++ ".svg") then
      some ("folder-vuex-" ++ lowerFileName)
    else if iconsList ("folder-vue-" ++ lowerFileName ++ ".svg") then
      some ("folder-vue-" ++ lowerFileName)
    else if lowerFileName == "nuxt" then some "folder-nuxt"
    else none
  else if activeIconPack == "nest" then
    if jsEndsWith lowerFileName ".controller.ts" || jsEndsWith lowerFileName ".controller.js" then
      some "nest-controller"
    else if jsEndsWith lowerFileName ".middleware.ts" || jsEndsWith lowerFileName ".middleware.js" then
      some "nest-middleware"
    else if jsEndsWith lowerFileName ".module.ts" || jsEndsWith lowerFileName ".module.js" then
      some "nest-module"
    else if jsEndsWith lowerFileName ".service.ts" || jsEndsWith lowerFileName ".service.js" then
      some "nest-service"
    else if jsEndsWith lowerFileName ".decorator.ts" || jsEndsWith lowerFileName ".decorator.js" then
      some "nest-decorator"
    else if jsEndsWith lowerFileName ".pipe.ts" || jsEndsWith lowerFileName ".pipe.js" then
      some "nest-pipe"
    else if jsEndsWith lowerFileName ".filter.ts" || jsEndsWith lowerFileName ".filter.js" then
      some "nest-filter"
    else if jsEndsWith lowerFileName ".gateway.ts" || jsEndsWith lowerFileName ".gateway.js" then
      some "nest-gateway"
    else if jsEndsWith lowerFileName ".guard.ts" || jsEndsWith lowerFileName ".guard.js" then
      some "nest-guard"
    else if jsEndsWith lowerFileName ".resolver.ts" || jsEndsWith lowerFileName ".resolver.js" then
      some "nest-resolver"
    else none
  else none

/-- Embedding of the icon-computation core of replaceIcon (main.js lines
155-184): derive the extension and the lowercase name, run the primary chain,
the light-theme stage when the theme is light, and the icon-pack stage when a
pack is active (`lookForIconPackMatch(lowerFileName) ?? iconName`). -/
def resolveIcon (iconMap : IconMap) (languageMap : LanguageMap)
    (iconsList : String → Bool) (activeIconPack : String) (isLightTheme : Bool)
    (fileName : String) (isDir isSubmodule isSymlink : Bool) : String :=
  let fileExt := fileExtension fileName
  let lowerFileName := fileName.toLower
  let iconName :=
    lookForMatch iconMap languageMap fileName lowerFileName fileExt
      isDir isSubmodule isSymlink
  let iconName2 :=
    if isLightTheme then lookForLightMatch iconMap iconName fileName fileExt isDir
    else iconName
  if activeIconPack == "" then iconName2
  else (lookForIconPackMatch activeIconPack iconsList lowerFileName).getD iconName2

/-- State of the rate shaper (main.js lines 26-27): the `executions` counter
and the pending reset timer, recorded as its absolute expiry time. -/
structure ShaperState where
  executions : Nat
  timerID : Option Nat
deriving DecidableEq

/-- Embedding of rushFirst (main.js lines 28-40) acting at logical time t:
returns the new shaper state together with the times at which the row
callback is invoked (immediate and +20 in the rushed branch, a zero-delay
deferred run in the throttled branch, which also restarts the 1000-unit
reset timer). -/
def rushFirst (rushBatch t : Nat) (s : ShaperState) : ShaperState × List Nat :=
  if s.executions ≤ rushBatch then
    (⟨s.executions + 1, s.timerID⟩, [t, t + 20])
  else
    (⟨s.executions, some (t + 1000)⟩, [t])

/-- A pending reset timer whose expiry has been reached fires on the event
loop before a row arriving at time t is processed, setting executions to 0. -/
def fireDue (t : Nat) (s : ShaperState) : ShaperState :=
  match s.timerID with
  | some expiry => if expiry ≤ t then ⟨0, none⟩ else s
  | none => s

/-- Processing of one observed row at logical time t: any due reset timer
fires first, then rushFirst runs. -/
def procRow (rushBatch t : Nat) (s : ShaperState) : ShaperState × List Nat :=
  rushFirst rushBatch t (fireDue t s)

/-- Processing of a sequence of rows at the given times, threading the
shaper state and collecting each row's invocation times. -/
def runRows (rushBatch : Nat) (ts : List Nat) (s : ShaperState) :
    ShaperState × List (List Nat) :=
  match ts with
  | [] => (s, [])
  | t :: rest =>
    let p := procRow rushBatch t s
    let q := runRows rushBatch rest p.1
    (q.1, p.2 :: q.2)

/-- A burst of k rows all observed at time 0, from the initial state, with
the rushBatch of 90 used by init (main.js line 112). -/
def burst (k : Nat) : ShaperState × List (List Nat) :=
  runRows 90 (List.replicate k 0) ⟨0, none⟩

/-- The everywhere-empty reference table. -/
def noTbl : String → Option String := fun _ => none

/-- Light tables with no entries. -/
def emptyLight : LightMap := ⟨noTbl, noTbl, noTbl⟩

/-- Icon map with no entries. -/
def emptyIconMap : IconMap := ⟨noTbl, noTbl, noTbl, noTbl, emptyLight⟩

/-- Language map with no entries. -/
def emptyLanguageMap : LanguageMap := ⟨noTbl, noTbl⟩

/-- Icon existence set with no entries. -/
def noIcons : String → Bool := fun _ => false

/-- Icon map whose only entry is a light-theme file-name icon for "a". -/
def lightAIconMap : IconMap :=
  { emptyIconMap with
    light := { emptyLight with
      fileNames := fun k => if k == "a" then some "light-a" else none } }

/-- Icon map with a file-name entry for "README" and an extension entry for
"md", used to witness the file-name-over-extension priority. -/
def readmeIconMap : IconMap :=
  { emptyIconMap with
    fileNames := fun k => if k == "README" then some "rm-icon" else none,
    fileExtensions := fun k => if k == "md" then some "markdown" else none }

/-- Icon map with only an extension entry for "js". -/
def jsExtIconMap : IconMap :=
  { emptyIconMap with
    fileExtensions := fun k => if k == "js" then some "javascript" else none }

/-- Variant of jsExtIconMap with different language ids but the same folder
and file names. -/
def jsExtIconMapB : IconMap :=
  { jsExtIconMap with languageIds := fun _ => some "lang" }

/-- Icon existence set containing exactly folder-react-app.svg. -/
def reactAppIcons : String → Bool := fun k => k == "folder-react-app.svg"

lemma truthy_getD {o : Option String} (h : truthy o = true) : o.getD "" ≠ "" := by
  cases o with
  | none => simp [truthy] at h
  | some v =>
    simp only [truthy, Bool.not_eq_true', beq_eq_false_iff_ne, ne_eq] at h
    simpa using h

lemma append_ne_empty (a b : String) (h : a.data ≠ []) : a ++ b ≠ "" := by
  obtain ⟨al⟩ := a
  obtain ⟨bl⟩ := b
  intro hc
  have hd : al ++ bl = ([] : List Char) := congrArg String.data hc
  cases hal : al with
  | nil => exact h (by simpa using hal)
  | cons c l => rw [hal] at hd; simp at hd

lemma getLast?_app_single {α : Type} (l : List α) (a : α) :
    (l ++ [a]).getLast? = some a := by
  induction l with
  | nil => rfl
  | cons x xs ih =>
    rw [List.cons_append, List.getLast?_cons, ih]
    rfl

lemma isPre_of_le : ∀ (r a b : List Char), isPre a r = true → isPre b r = true →
    a.length ≤ b.length → isPre a b = true := by
  intro r
  induction r with
  | nil =>
    intro a b ha _ _
    cases a with
    | nil => cases b <;> simp [isPre]
    | cons x xs => simp [isPre] at ha
  | cons y ys ih =>
    intro a b ha hb hl
    cases a with
    | nil => cases b <;> simp [isPre]
    | cons x xs =>
      cases b with
      | nil => simp at hl
      | cons z zs =>
        simp only [isPre, Bool.and_eq_true, beq_iff_eq] at ha hb ⊢
        obtain ⟨hx, ha2⟩ := ha
        obtain ⟨hz, hb2⟩ := hb
        simp only [List.length_cons] at hl
        exact ⟨hx.trans hz.symm, ih xs zs ha2 hb2 (by omega)⟩

lemma notEndsOf (s pa pb : String) (h : jsEndsWith s pa = true)
    (h1 : isPre pa.data.reverse pb.data.reverse = false)
    (h2 : isPre pb.data.reverse pa.data.reverse = false) :
    jsEndsWith s pb = false := by
  unfold jsEndsWith at h ⊢
  by_contra hc
  rw [Bool.not_eq_false] at hc
  rcases Nat.le_total pa.data.reverse.length pb.data.reverse.length with hle | hle
  · rw [isPre_of_le s.data.reverse _ _ h hc hle] at h1
    exact Bool.true_eq_false.mp h1
  · rw [isPre_of_le s.data.reverse _ _ hc h hle] at h2
    exact Bool.true_eq_false.mp h2

lemma lightPass (im : IconMap) (f : String) (e : Option String) (d : Bool)
    (icon : String)
    (h1 : d = false → truthy (im.light.fileNames f) = false ∧
      truthy (im.light.fileExtensions (extKey e)) = false)
    (h2 : d = true → truthy (im.light.folderNames f) = false) :
    lookForLightMatch im icon f e d = icon := by
  cases d with
  | false =>
    obtain ⟨ha, hb⟩ := h1 rfl
    simp [lookForLightMatch, ha, hb]
  | true =>
    have hc := h2 rfl
    simp [lookForLightMatch, hc]

lemma ite_ne_of {c : Prop} [Decidable c] {a b x : String} (ha : c → a ≠ x)
    (hb : ¬ c → b ≠ x) : ite c a b ≠ x := by
  by_cases hc : c
  · rw [if_pos hc]; exact ha hc
  · rw [if_neg hc]; exact hb hc

lemma opt_step {c : Prop} [Decidable c] {a b : Option String} {r : String}
    (h : ite c a b = some r) : (c ∧ a = some r) ∨ (¬ c ∧ b = some r) := by
  by_cases hc : c
  · rw [if_pos hc] at h; exact Or.inl ⟨hc, h⟩
  · rw [if_neg hc] at h; exact Or.inr ⟨hc, h⟩

lemma lookForMatch_ne (im : IconMap) (lm : LanguageMap) (f l : String)
    (e : Option String) (d sub sym : Bool) :
    lookForMatch im lm f l e d sub sym ≠ "" := by
  unfold lookForMatch
  repeat' (apply ite_ne_of <;> intro hg)
  all_goals first
    | decide
    | (simp only [Bool.and_eq_true] at hg
       first
         | exact truthy_getD hg.1.1
         | exact truthy_getD hg.1)

lemma lookForLightMatch_ne (im : IconMap) (icon f : String) (e : Option String)
    (d : Bool) (h : icon ≠ "") : lookForLightMatch im icon f e d ≠ "" := by
  unfold lookForLightMatch
  repeat' (apply ite_ne_of <;> intro hg)
  all_goals first
    | exact h
    | (simp only [Bool.and_eq_true] at hg
       exact truthy_getD hg.1)

lemma pack_ne (pack : String) (L : String → Bool) (n r : String)
    (h : lookForIconPackMatch pack L n = some r) : r ≠ "" := by
  unfold lookForIconPackMatch at h
  rcases opt_step h with ⟨-, h⟩ | ⟨-, h⟩
  · exact Option.noConfusion h
  rcases opt_step h with ⟨-, h⟩ | ⟨-, h⟩
  · rcases opt_step h with ⟨-, h⟩ | ⟨-, h⟩
    · injection h with h'; subst h'; exact append_ne_empty _ _ (by decide)
    · exact Option.noConfusion h
  rcases opt_step h with ⟨-, h⟩ | ⟨-, h⟩
  · rcases opt_step h with ⟨-, h⟩ | ⟨-, h⟩
    · injection h with h'; subst h'; exact append_ne_empty _ _ (by decide)
    rcases opt_step h with ⟨-, h⟩ | ⟨-, h⟩
    · injection h with h'; subst h'; exact append_ne_empty _ _ (by decide)
    · exact Option.noConfusion h
  rcases opt_step h with ⟨-, h⟩ | ⟨-, h⟩
  · rcases opt_step h with ⟨-, h⟩ | ⟨-, h⟩
    · injection h with h'; subst h'; exact append_ne_empty _ _ (by decide)
    rcases opt_step h with ⟨-, h⟩ | ⟨-, h⟩
    · injection h with h'; subst h'; exact append_ne_empty _ _ (by decide)
    rcases opt_step h with ⟨-, h⟩ | ⟨-, h⟩
    · injection h with h'; subst h'; decide
    · exact Option.noConfusion h
  rcases opt_step h with ⟨-, h⟩ | ⟨-, h⟩
  · rcases opt_step h with ⟨-, h⟩ | ⟨-, h⟩
    · injection h with h'; subst h'; decide
    rcases opt_step h with ⟨-, h⟩ | ⟨-, h⟩
    · injection h with h'; subst h'; decide
    rcases opt_step h with ⟨-, h⟩ | ⟨-, h⟩
    · injection h with h'; subst h'; decide
    rcases opt_step h with ⟨-, h⟩ | ⟨-, h⟩
    · injection h with h'; subst h'; decide
    rcases opt_step h with ⟨-, h⟩ | ⟨-, h⟩
    · injection h with h'; subst h'; decide
    rcases opt_step h with ⟨-, h⟩ | ⟨-, h⟩
    · injection h with h'; subst h'; decide
    rcases opt_step h with ⟨-, h⟩ | ⟨-, h⟩
    · injection h with h'; subst h'; decide
    rcases opt_step h with ⟨-, h⟩ | ⟨-, h⟩
    · injection h with h'; subst h'; decide
    rcases opt_step h with ⟨-, h⟩ | ⟨-, h⟩
    · injection h with h'; subst h'; decide
    rcases opt_step h with ⟨-, h⟩ | ⟨-, h⟩
    · injection h with h'; subst h'; decide
    · exact Option.noConfusion h
  · exact Option.noConfusion h

lemma runRows_append (rb : Nat) (ts us : List Nat) (s : ShaperState) :
    runRows rb (ts ++ us) s =
      ((runRows rb us (runRows rb ts s).1).1,
        (runRows rb ts s).2 ++ (runRows rb us (runRows rb ts s).1).2) := by
  induction ts generalizing s with
  | nil => simp [runRows]
  | cons t rest ih => simp [runRows, ih]

lemma burst_succ (k : Nat) :
    burst (k + 1) =
      ((procRow 90 0 (burst k).1).1, (burst k).2 ++ [(procRow 90 0 (burst k).1).2]) := by
  unfold burst
  rw [List.replicate_succ', runRows_append]
  simp [runRows]

lemma burst_state (k : Nat) :
    (burst k).1 = ⟨min k 91, if 92 ≤ k then some 1000 else none⟩ := by
  induction k with
  | zero => decide
  | succ k ih =>
    rw [burst_succ, ih]
    by_cases h1 : k ≤ 90
    · have h92 : ¬ 92 ≤ k := by omega
      simp only [h92, if_false, procRow, fireDue, rushFirst, h1, if_true]
      have ha : min k 91 = k := by omega
      have hb : min (k + 1) 91 = k + 1 := by omega
      have hc : ¬ 92 ≤ k + 1 := by omega
      simp [ha, hb, hc, h1]
    · by_cases h92 : 92 ≤ k
      · have ha : min k 91 = 91 := by omega
        have hb : min (k + 1) 91 = 91 := by omega
        have hc : 92 ≤ k + 1 := by omega
        simp [procRow, fireDue, rushFirst, ha, hb, h92, hc]
      · have hk : k = 91 := by omega
        subst hk
        decide

lemma burst_last (k : Nat) :
    (burst (k + 1)).2.getLast? = some (if k ≤ 90 then [0, 20] else [0]) := by
  rw [burst_succ, getLast?_app_single, burst_state k]
  by_cases h : k ≤ 90
  · have h92 : ¬ 92 ≤ k := by omega
    have ha : min k 91 = k := by omega
    simp [procRow, fireDue, rushFirst, ha, h, h92]
  · have ha : min k 91 = 91 := by omega
    by_cases h92 : 92 ≤ k
    · simp [procRow, fireDue, rushFirst, ha, h, h92]
    · have hk : k = 91 := by omega
      subst hk
      decide

/-- C5 (confirmed): the extension parser yields extension "xml.dist" for
"a.xml.dist", "xml.dist.sample" for "a.xml.dist.sample", "yml.dist" for
"a.yml.dist", plain "gz" for "a.tar.gz" (tar.gz is not a special-cased
compound suffix), and no extension at all for "Makefile". -/
theorem c5_extension_parsing :
    fileExtension "a.xml.dist" = some "xml.dist" ∧
    fileExtension "a.xml.dist.sample" = some "xml.dist.sample" ∧
    fileExtension "a.yml.dist" = some "yml.dist" ∧
    fileExtension "a.tar.gz" = some "gz" ∧
    fileExtension "Makefile" = none :=
  ⟨by decide, by decide, by decide, by decide, by decide⟩

/-- C3 (confirmed): for a non-directory, non-submodule, non-symlink input
whose exact filename holds a (truthy) entry of the primary file-name table,
lookForMatch returns exactly that entry, for every content of all the other
tables (extension, language-id and fallback language tables included). -/
theorem c3_fileName_priority (im : IconMap) (lm : LanguageMap) (f l : String)
    (e : Option String) (v : String) (hv : im.fileNames f = some v)
    (hne : v ≠ "") :
    lookForMatch im lm f l e false false false = v := by
  have ht : truthy (some v) = true := by
    simp only [truthy, Bool.not_eq_true', beq_eq_false_iff_ne, ne_eq]
    exact hne
  simp [lookForMatch, hv, ht]

/-- Witness for C3 at a concrete input: the README file-name entry wins even
though the extension table has an entry for the extension. -/
theorem c3_fileName_priority_witness :
    readmeIconMap.fileNames "README" = some "rm-icon" ∧
    lookForMatch readmeIconMap emptyLanguageMap "README" "readme" (some "md")
      false false false = "rm-icon" :=
  ⟨by decide,
    c3_fileName_priority readmeIconMap emptyLanguageMap "README" "readme"
      (some "md") "rm-icon" (by decide) (by decide)⟩

/-- C4 (confirmed): for a directory (not submodule, not symlink) the result
of lookForMatch depends only on the folder-name table (no extension-keyed or
language-table lookup is consulted), and when neither the exact-case nor the
lowercase name holds a folder-table entry the result is the default
"folder". -/
theorem c4_directory_resolution (im im2 : IconMap) (lm lm2 : LanguageMap)
    (f l : String) (e : Option String)
    (hfold : im.folderNames = im2.folderNames) :
    lookForMatch im lm f l e true false false =
      lookForMatch im2 lm2 f l e true false false ∧
    (truthy (im.folderNames f) = false → truthy (im.folderNames l) = false →
      lookForMatch im lm f l e true false false = "folder") := by
  constructor
  · simp [lookForMatch, hfold]
  · intro h1 h2
    simp [lookForMatch, h1, h2]

/-- Witness for C4 at a concrete input: a directory named src with no
folder-table entry resolves to "folder", unchanged when the extension and
language-id tables change. -/
theorem c4_directory_resolution_witness :
    lookForMatch jsExtIconMap emptyLanguageMap "src" "src" (some "js")
      true false false = "folder" ∧
    lookForMatch jsExtIconMap emptyLanguageMap "src" "src" (some "js")
      true false false =
      lookForMatch jsExtIconMapB emptyLanguageMap "src" "src" (some "js")
        true false false := by
  have h := c4_directory_resolution jsExtIconMap jsExtIconMapB
    emptyLanguageMap emptyLanguageMap "src" "src" (some "js") rfl
  exact ⟨h.2 (by decide) (by decide), h.1⟩

/-- C9 (confirmed): lookForMatch always returns a non-empty icon identifier
(at worst the defaults "folder" or "file"), and the full chain with the
light-theme and icon-pack stages keeps the result non-empty, so the
no-icon-name abort of replaceIcon is unreachable once a filename and icon
element were found. -/
theorem c9_nonempty_icon (im : IconMap) (lm : LanguageMap) (L : String → Bool)
    (pack f l : String) (e : Option String) (light d sub sym : Bool) :
    lookForMatch im lm f l e d sub sym ≠ "" ∧
    resolveIcon im lm L pack light f d sub sym ≠ "" := by
  refine ⟨lookForMatch_ne im lm f l e d sub sym, ?_⟩
  have h0 : lookForMatch im lm f f.toLower (fileExtension f) d sub sym ≠ "" :=
    lookForMatch_ne im lm f f.toLower (fileExtension f) d sub sym
  have h1 : (if light = true then
      lookForLightMatch im
        (lookForMatch im lm f f.toLower (fileExtension f) d sub sym) f
        (fileExtension f) d
    else lookForMatch im lm f f.toLower (fileExtension f) d sub sym) ≠ "" := by
    cases light with
    | false => simpa using h0
    | true => simpa using lookForLightMatch_ne im _ f (fileExtension f) d h0
  simp only [resolveIcon]
  cases hpe : (pack == "") with
  | true => simpa [hpe] using h1
  | false =>
    simp only [hpe, Bool.false_eq_true, if_false]
    cases ho : lookForIconPackMatch pack L f.toLower with
    | none => simpa [ho] using h1
    | some r =>
      simp only [ho, Option.getD_some]
      exact pack_ne pack L f.toLower r ho

/-- C10 (confirmed): under the angular and angular_ngrx packs the existence
check uses the react-prefixed asset name folder-react-(name).svg while the
returned identifier is the ngrx-prefixed folder-ngrx-(name); the pack match
returns an override exactly when the react-prefixed asset exists. -/
theorem c10_angular_ngrx_prefixes (pack : String) (L : String → Bool)
    (n : String) (hp : pack = "angular" ∨ pack = "angular_ngrx") :
    lookForIconPackMatch pack L n =
      if L ("folder-react-" ++ n ++ ".svg") then some ("folder-ngrx-" ++ n)
      else none := by
  rcases hp with h | h
  · subst h
    simp [lookForIconPackMatch,
      (by decide : (("angular" : String) == "") = false),
      (by decide : (("angular" : String) == "angular") = true)]
  · subst h
    simp [lookForIconPackMatch,
      (by decide : (("angular_ngrx" : String) == "") = false),
      (by decide : (("angular_ngrx" : String) == "angular") = false),
      (by decide : (("angular_ngrx" : String) == "angular_ngrx") = true)]

/-- Witness for C10 at a concrete input: with folder-react-app.svg present,
the angular pack returns the ngrx identifier for the name app. -/
theorem c10_angular_ngrx_prefixes_witness :
    (("angular" : String) = "angular" ∨ ("angular" : String) = "angular_ngrx") ∧
    lookForIconPackMatch "angular" reactAppIcons "app" = some "folder-ngrx-app" := by
  have h := c10_angular_ngrx_prefixes "angular" reactAppIcons "app" (Or.inl rfl)
  refine ⟨Or.inl rfl, ?_⟩
  rw [h]
  decide

/-- C7 (confirmed): under the nest pack, every lowercase name ending in
.service.ts matches the service pattern (and none of the earlier patterns,
whose suffixes are incompatible), returning nest-service; a name ending in
.unknown.ts matches none of the ten patterns, so the pack lookup returns no
override and the previously computed icon survives the ?? fallback. -/
theorem c7_nest_pack (L : String → Bool) (s u icon : String)
    (hs : jsEndsWith s ".service.ts" = true)
    (hu : jsEndsWith u ".unknown.ts" = true) :
    lookForIconPackMatch "nest" L s = some "nest-service" ∧
    lookForIconPackMatch "nest" L u = none ∧
    (lookForIconPackMatch "nest" L u).getD icon = icon := by
  have e1 := notEndsOf s ".service.ts" ".controller.ts" hs (by decide) (by decide)
  have e2 := notEndsOf s ".service.ts" ".controller.js" hs (by decide) (by decide)
  have e3 := notEndsOf s ".service.ts" ".middleware.ts" hs (by decide) (by decide)
  have e4 := notEndsOf s ".service.ts" ".middleware.js" hs (by decide) (by decide)
  have e5 := notEndsOf s ".service.ts" ".module.ts" hs (by decide) (by decide)
  have e6 := notEndsOf s ".service.ts" ".module.js" hs (by decide) (by decide)
  have f01 := notEndsOf u ".unknown.ts" ".controller.ts" hu (by decide) (by decide)
  have f02 := notEndsOf u ".unknown.ts" ".controller.js" hu (by decide) (by decide)
  have f03 := notEndsOf u ".unknown.ts" ".middleware.ts" hu (by decide) (by decide)
  have f04 := notEndsOf u ".unknown.ts" ".middleware.js" hu (by decide) (by decide)
  have f05 := notEndsOf u ".unknown.ts" ".module.ts" hu (by decide) (by decide)
  have f06 := notEndsOf u ".unknown.ts" ".module.js" hu (by decide) (by decide)
  have f07 := notEndsOf u ".unknown.ts" ".service.ts" hu (by decide) (by decide)
  have f08 := notEndsOf u ".unknown.ts" ".service.js" hu (by decide) (by decide)
  have f09 := notEndsOf u ".unknown.ts" ".decorator.ts" hu (by decide) (by decide)
  have f10 := notEndsOf u ".unknown.ts" ".decorator.js" hu (by decide) (by decide)
  have f11 := notEndsOf u ".unknown.ts" ".pipe.ts" hu (by decide) (by decide)
  have f12 := notEndsOf u ".unknown.ts" ".pipe.js" hu (by decide) (by decide)
  have f13 := notEndsOf u ".unknown.ts" ".filter.ts" hu (by decide) (by decide)
  have f14 := notEndsOf u ".unknown.ts" ".filter.js" hu (by decide) (by decide)
  have f15 := notEndsOf u ".unknown.ts" ".gateway.ts" hu (by decide) (by decide)
  have f16 := notEndsOf u ".unknown.ts" ".gateway.js" hu (by decide) (by decide)
  have f17 := notEndsOf u ".unknown.ts" ".guard.ts" hu (by decide) (by decide)
  have f18 := notEndsOf u ".unknown.ts" ".guard.js" hu (by decide) (by decide)
  have f19 := notEndsOf u ".unknown.ts" ".resolver.ts" hu (by decide) (by decide)
  have f20 := notEndsOf u ".unknown.ts" ".resolver.js" hu (by decide) (by decide)
  have hnone : lookForIconPackMatch "nest" L u = none := by
    simp [lookForIconPackMatch, f01, f02, f03, f04, f05, f06, f07, f08, f09,
      f10, f11, f12, f13, f14, f15, f16, f17, f18, f19, f20,
      (by decide : (("nest" : String) == "") = false),
      (by decide : (("nest" : String) == "angular") = false),
      (by decide : (("nest" : String) == "angular_ngrx") = false),
      (by decide : (("nest" : String) == "react") = false),
      (by decide : (("nest" : String) == "react_redux") = false),
      (by decide : (("nest" : String) == "vue") = false),
      (by decide : (("nest" : String) == "vue_vuex") = false),
      (by decide : (("nest" : String) == "nest") = true)]
  refine ⟨?_, hnone, by rw [hnone]; rfl⟩
  simp [lookForIconPackMatch, e1, e2, e3, e4, e5, e6, hs,
    (by decide : (("nest" : String) == "") = false),
    (by decide : (("nest" : String) == "angular") = false),
    (by decide : (("nest" : String) == "angular_ngrx") = false),
    (by decide : (("nest" : String) == "react") = false),
    (by decide : (("nest" : String) == "react_redux") = false),
    (by decide : (("nest" : String) == "vue") = false),
    (by decide : (("nest" : String) == "vue_vuex") = false),
    (by decide : (("nest" : String) == "nest") = true)]

/-- Witness for C7 at concrete inputs app.service.ts and app.unknown.ts. -/
theorem c7_nest_pack_witness :
    jsEndsWith "app.service.ts" ".service.ts" = true ∧
    jsEndsWith "app.unknown.ts" ".unknown.ts" = true ∧
    lookForIconPackMatch "nest" noIcons "app.service.ts" = some "nest-service" ∧
    lookForIconPackMatch "nest" noIcons "app.unknown.ts" = none := by
  have h := c7_nest_pack noIcons "app.service.ts" "app.unknown.ts" "file"
    (by decide) (by decide)
  exact ⟨by decide, by decide, h.1, h.2.1⟩

/-- C8 (confirmed): the engine is total and degrades instead of failing:
with no extension the JS lookup key is the literal string "undefined", so
as long as no table holds a (truthy) entry at that key the result of the
primary chain for an extensionless name (the empty name included) is
independent of all extension-keyed tables, and an unrecognized active-pack
identifier makes the pack lookup return none (no override) rather than an
error. -/
theorem c8_no_throw_degrade (im im2 : IconMap) (lm lm2 : LanguageMap)
    (L : String → Bool) (pack f l : String) (d sub sym : Bool)
    (hfn : im.fileNames = im2.fileNames)
    (hdn : im.folderNames = im2.folderNames)
    (hlfn : lm.fileNames = lm2.fileNames)
    (hu1 : truthy (im.fileExtensions "undefined") = false)
    (hu2 : truthy (im2.fileExtensions "undefined") = false)
    (hu3 : truthy (im.languageIds "undefined") = false)
    (hu4 : truthy (im2.languageIds "undefined") = false)
    (hu5 : truthy (lm.fileExtensions "undefined") = false)
    (hu6 : truthy (lm2.fileExtensions "undefined") = false)
    (hp1 : (pack == "angular") = false) (hp2 : (pack == "angular_ngrx") = false)
    (hp3 : (pack == "react") = false) (hp4 : (pack == "react_redux") = false)
    (hp5 : (pack == "vue") = false) (hp6 : (pack == "vue_vuex") = false)
    (hp7 : (pack == "nest") = false) :
    lookForMatch im lm f l none d sub sym = lookForMatch im2 lm2 f l none d sub sym ∧
    lookForIconPackMatch pack L l = none := by
  constructor
  · cases d <;> cases sub <;> cases sym <;>
      simp [lookForMatch, extKey, hfn, hdn, hlfn, hu1, hu2, hu3, hu4, hu5, hu6]
  · cases hpe : (pack == "") with
    | true => simp [lookForIconPackMatch, hpe]
    | false =>
      simp [lookForIconPackMatch, hpe, hp1, hp2, hp3, hp4, hp5, hp6, hp7]

/-- Witness for C8 at a concrete input: the empty file name with no
extension, tables differing only in extension entries, and the unrecognized
pack identifier bogus. -/
theorem c8_no_throw_degrade_witness :
    lookForMatch emptyIconMap emptyLanguageMap "" "" none false false false =
      lookForMatch jsExtIconMap emptyLanguageMap "" "" none false false false ∧
    lookForIconPackMatch "bogus" noIcons "x" = none := by
  have h := c8_no_throw_degrade emptyIconMap jsExtIconMap emptyLanguageMap
    emptyLanguageMap noIcons "bogus" "" "x" false false false rfl rfl rfl
    (by decide) (by decide) (by decide) (by decide) (by decide) (by decide)
    (by decide) (by decide) (by decide) (by decide) (by decide) (by decide)
    (by decide)
  exact h

/-- C1 counterexample: with a submodule row (isDir false, isSymlink false),
a light theme and a light-table entry for the exact filename, the full
resolution chain returns the light entry, not the fixed submodule icon
folder-git, refuting the claim that the submodule icon is returned
regardless of the other flags and table contents. -/
theorem c1_submodule_counterexample :
    resolveIcon lightAIconMap emptyLanguageMap noIcons "" true "a" false true false =
      "light-a" ∧
    ("light-a" : String) ≠ "folder-git" :=
  ⟨by decide, by decide⟩

/-- C1 (corrected, amended): lookForMatch itself returns folder-git for
every submodule regardless of all other flags, the name, the extension and
every table; the full chain returns folder-git provided the light stage has
no matching light entry for the input (or the theme is not light) and the
icon-pack stage yields no override. -/
theorem c1_submodule_fixed_icon (im : IconMap) (lm : LanguageMap)
    (L : String → Bool) (pack f : String) (light d sym : Bool)
    (hl : light = true →
      (d = false → truthy (im.light.fileNames f) = false ∧
        truthy (im.light.fileExtensions (extKey (fileExtension f))) = false) ∧
      (d = true → truthy (im.light.folderNames f) = false))
    (hp : lookForIconPackMatch pack L f.toLower = none) :
    lookForMatch im lm f f.toLower (fileExtension f) d true sym = "folder-git" ∧
    resolveIcon im lm L pack light f d true sym = "folder-git" := by
  have hm : lookForMatch im lm f f.toLower (fileExtension f) d true sym =
      "folder-git" := by
    unfold lookForMatch
    rw [if_pos rfl]
  refine ⟨hm, ?_⟩
  have hlight : (if light = true then
      lookForLightMatch im
        (lookForMatch im lm f f.toLower (fileExtension f) d true sym) f
        (fileExtension f) d
    else lookForMatch im lm f f.toLower (fileExtension f) d true sym) =
      "folder-git" := by
    cases light with
    | false => simpa using hm
    | true =>
      obtain ⟨h1, h2⟩ := hl rfl
      rw [if_pos rfl, lightPass im f (fileExtension f) d _ h1 h2]
      exact hm
  simp only [resolveIcon]
  rw [hlight, hp]
  simp

/-- Witness for the amended C1 at a concrete input: no light theme, empty
tables, no active pack. -/
theorem c1_submodule_fixed_icon_witness :
    lookForIconPackMatch "" noIcons ("x".toLower) = none ∧
    resolveIcon emptyIconMap emptyLanguageMap noIcons "" false "x" false true false =
      "folder-git" := by
  have hp : lookForIconPackMatch "" noIcons ("x".toLower) = none := rfl
  have h := c1_submodule_fixed_icon emptyIconMap emptyLanguageMap noIcons ""
    "x" false false false (fun hc => absurd hc (by decide)) hp
  exact ⟨hp, h.2⟩

/-- C6 (confirmed): the light stage leaves the primary result unchanged
whenever no light-specific entry exists for the input's exact filename
(files), exact folder name (directories) or extension (files); consequently
resolution with the light theme equals resolution without it on such inputs
(the contrapositive being that a differing result requires a light entry). -/
theorem c6_light_no_entry (im : IconMap) (lm : LanguageMap) (L : String → Bool)
    (pack f : String) (d sub sym : Bool)
    (h1 : d = false → truthy (im.light.fileNames f) = false ∧
      truthy (im.light.fileExtensions (extKey (fileExtension f))) = false)
    (h2 : d = true → truthy (im.light.folderNames f) = false) :
    lookForLightMatch im
      (lookForMatch im lm f f.toLower (fileExtension f) d sub sym) f
      (fileExtension f) d =
      lookForMatch im lm f f.toLower (fileExtension f) d sub sym ∧
    resolveIcon im lm L pack true f d sub sym =
      resolveIcon im lm L pack false f d sub sym := by
  have hp := lightPass im f (fileExtension f) d
    (lookForMatch im lm f f.toLower (fileExtension f) d sub sym) h1 h2
  refine ⟨hp, ?_⟩
  simp only [resolveIcon, eq_self_iff_true, if_true, Bool.false_eq_true,
    if_false]
  rw [hp]

/-- Witness for C6 at a concrete input: a file with no light entries
resolves identically under both themes. -/
theorem c6_light_no_entry_witness :
    resolveIcon emptyIconMap emptyLanguageMap noIcons "" true "a.js" false false false =
      resolveIcon emptyIconMap emptyLanguageMap noIcons "" false "a.js" false false false := by
  have h := c6_light_no_entry emptyIconMap emptyLanguageMap noIcons "" "a.js"
    false false false (fun _ => ⟨by decide, by decide⟩) (fun _ => by decide)
  exact h.2

/-- C2 counterexample: in a burst of 91 rows at time 0 the 91st row still
triggers two invocations (immediate and +20), not one, because the rushed
branch runs while executions is at most 90 and the counter starts at 0; and
since no throttled row ever armed the reset timer, a row arriving 2000
time-units later is still throttled to a single invocation instead of being
rushed again. -/
theorem c2_rate_shaper_counterexample :
    (burst 91).2.getLast?.map List.length = some 2 ∧
    (procRow 90 2000 (burst 91).1).2.length = 1 := by
  constructor
  · rw [(by norm_num : (91 : Nat) = 90 + 1), burst_last 90]
    simp
  · rw [burst_state 91]
    simp [procRow, fireDue, rushFirst]

/-- C2 (corrected, amended): with rushBatch 90 and the counter starting at
0, the k-th row of a burst triggers two invocations (immediate and +20)
exactly when k is at most 91, and a single zero-delay deferred invocation
from the 92nd row on; once a burst contains at least one throttled row (k at
least 92) the 1000-unit reset timer is armed, and a row arriving at least
1000 time-units later is rushed again with two invocations. -/
theorem c2_rate_shaper_behavior (k : Nat) (hk : 1 ≤ k) :
    (burst k).2.getLast?.map List.length = some (if k ≤ 91 then 2 else 1) ∧
    (92 ≤ k → ∀ T, 1000 ≤ T → (procRow 90 T (burst k).1).2.length = 2) := by
  obtain ⟨j, rfl⟩ : ∃ j, k = j + 1 := ⟨k - 1, by omega⟩
  constructor
  · rw [burst_last j]
    by_cases h : j ≤ 90
    · have h2 : j + 1 ≤ 91 := by omega
      simp [h, h2]
    · have h2 : ¬ (j + 1 ≤ 91) := by omega
      simp [h, h2]
  · intro h92 T hT
    rw [burst_state]
    have hmin : min (j + 1) 91 = 91 := by omega
    simp [procRow, fireDue, rushFirst, hmin, h92, hT]

/-- Witness for the amended C2 at a concrete input: a burst of 92 rows, then
a row 1500 time-units later. -/
theorem c2_rate_shaper_behavior_witness :
    (1 ≤ 92) ∧
    (burst 92).2.getLast?.map List.length = some (if 92 ≤ 91 then 2 else 1) ∧
    (procRow 90 1500 (burst 92).1).2.length = 2 := by
  have h := c2_rate_shaper_behavior 92 (by decide)
  exact ⟨by decide, h.1, h.2 (by decide) 1500 (by decide)⟩

end MaterialIcons
